import Mathlib

/-!
# Verification of the tak-tactics-backend rating and puzzle-selection engine

Shallow embedding of `src/main.rs` and `src/ratings.rs`.  The SQLite store is
modelled as in-memory lists (one per table); `f64`/`f32` values are modelled in
exact rational arithmetic (`ℚ`); `u64`/`u32`/`usize` values as `ℕ`.  Randomized
choices (`ORDER BY RANDOM() LIMIT 1`, `rand::rng().random_range`) are modelled
as explicit function parameters, constrained by the random source's contract
where a theorem needs it.
-/

set_option autoImplicit false

namespace TakTactics

/-- A row of the `puzzles` table (struct `PuzzleRow` in `main.rs`). -/
structure PuzzleRow where
  id : ℕ
  root_tps : String
  defender_start_move : String
  size : ℕ
  komi : String
  player_white : String
  player_black : String
  solution : String
  initial_rating : Option ℤ
  rating : Option ℤ
  target_time_seconds : ℕ
  playtak_game_id : ℕ
deriving DecidableEq

/-- A row of the `puzzle_attempts` table (struct `PuzzleAttemptRow` in `main.rs`). -/
structure PuzzleAttemptRow where
  puzzle_id : ℕ
  username : String
  solved : Bool
  solve_time_seconds : ℕ
  solution : String
  timestamp_seconds : ℕ
deriving DecidableEq

/-- A row of the `users` table (player identity and externally maintained rating). -/
structure UserRow where
  username : String
  rating : ℚ
deriving DecidableEq

/-- The SQLite database contents: the three tables created by `init_db_tables`.
Attempt lists are kept in insertion order (`timestamp` ties break by write order). -/
structure DB where
  puzzles : List PuzzleRow
  puzzle_attempts : List PuzzleAttemptRow
  users : List UserRow
deriving DecidableEq

/-- Auxiliary tokenizer: splits a character list at whitespace, dropping empty
chunks, accumulating the current token in reverse in `acc`.  Models Rust's
`str::split_whitespace`. -/
def splitWsAux : List Char → List Char → List (List Char)
  | acc, [] => if acc.isEmpty then [] else [acc.reverse]
  | acc, c :: rest =>
    if c.isWhitespace then
      if acc.isEmpty then splitWsAux [] rest
      else acc.reverse :: splitWsAux [] rest
    else splitWsAux (c :: acc) rest

/-- Model of Rust's `str::split_whitespace().collect()`: the list of maximal
nonempty runs of non-whitespace characters. -/
def splitWhitespace (s : String) : List String :=
  (splitWsAux [] s.toList).map List.asString

/-- Rust's unsigned `div_ceil`. -/
def divCeil (a b : ℕ) : ℕ := (a + b - 1) / b

/-- `SELECT solution FROM puzzles WHERE id = ?1` (first matching row, if any). -/
def querySolution (db : DB) (puzzle_id : ℕ) : Option String :=
  (db.puzzles.find? (fun q => q.id == puzzle_id)).map (fun q => q.solution)

/-- `default_puzzle_rating` from `ratings.rs`: looks up the puzzle's solution
(`unwrap_or_default` turns a missing row into the empty string) and returns
`1250 + (solution.split_whitespace().count() / 2) * 350` as a float. -/
def default_puzzle_rating (db : DB) (puzzle_id : ℕ) : ℚ :=
  let solution := (querySolution db puzzle_id).getD ""
  ((1250 + ((splitWhitespace solution).length / 2) * 350 : ℕ) : ℚ)

/-- Earliest attempt in a list: the attempt with minimal `timestamp_seconds`,
the earlier list position winning ties.  This is the `rn = 1` row of
`ROW_NUMBER() OVER (PARTITION BY username, puzzle_id ORDER BY timestamp_seconds
ASC)` for one partition, with the tie order the spec fixes ("ties broken by
write order"). -/
def firstAttemptIn : List PuzzleAttemptRow → Option PuzzleAttemptRow
  | [] => none
  | a :: rest =>
    match firstAttemptIn rest with
    | none => some a
    | some b => if a.timestamp_seconds ≤ b.timestamp_seconds then some a else some b

/-- `read_puzzle_attempts_for_user` from `main.rs`: the window query restricted
to one username; one row per distinct puzzle the user attempted, namely the
earliest attempt on that puzzle. -/
def read_puzzle_attempts_for_user (attempts : List PuzzleAttemptRow) (username : String) :
    List PuzzleAttemptRow :=
  let mine := attempts.filter (fun a => a.username == username)
  ((mine.map (fun a => a.puzzle_id)).dedup).filterMap
    (fun p => firstAttemptIn (mine.filter (fun a => a.puzzle_id == p)))

/-- The `ranked_attempts ... WHERE puzzle_id = ?1 AND rn = 1` rows of the query
in `rating_for_puzzles`: the earliest attempt of each distinct player on the
given puzzle.  (Partitioning by `(username, puzzle_id)` and then filtering to
one `puzzle_id` is ranking per username within that puzzle.) -/
def first_attempts_for_puzzle (attempts : List PuzzleAttemptRow) (puzzle_id : ℕ) :
    List PuzzleAttemptRow :=
  let onPuzzle := attempts.filter (fun a => a.puzzle_id == puzzle_id)
  ((onPuzzle.map (fun a => a.username)).dedup).filterMap
    (fun u => firstAttemptIn (onPuzzle.filter (fun a => a.username == u)))

/-- A row of the query result in `rating_for_puzzles` (struct `RatingRow` in
`ratings.rs`): `ranked_attempts.solved, users.username, users.rating`. -/
structure RatingRow where
  solved : Bool
  username : String
  rating : ℚ
deriving DecidableEq

/-- The full query of `rating_for_puzzles`: first attempts on the puzzle,
denylist filter `username != 'Morten' AND username != 'Mort2'`, inner join
against the `users` table on username. -/
def rating_rows_for_puzzle (db : DB) (puzzle_id : ℕ) : List RatingRow :=
  (first_attempts_for_puzzle db.puzzle_attempts puzzle_id).filterMap
    (fun a =>
      if a.username = "Morten" ∨ a.username = "Mort2" then none
      else
        (db.users.find? (fun u => u.username == a.username)).map
          (fun u => { solved := a.solved, username := u.username, rating := u.rating }))

/-- The `skillratings` crate's `Glicko2Rating` (rating, deviation, volatility),
with `f64` fields modelled in `ℚ`. -/
structure Glicko2Rating where
  rating : ℚ
  deviation : ℚ
  volatility : ℚ
deriving DecidableEq

/-- `Glicko2Rating::default()` of the `skillratings` crate:
rating 1500, deviation 350, volatility 0.06.  The volatility is written in
normalized form (`3/50 = 0.06`) so that terms containing it stay
kernel-reducible. -/
def glicko2Default : Glicko2Rating :=
  { rating := 1500, deviation := 350,
    volatility := Rat.mk' 3 50 (by norm_num) (by norm_num) }

/-- The `skillratings` crate's `Outcomes` enum. -/
inductive Outcomes where
  | WIN
  | LOSS
  | DRAW
deriving DecidableEq

/-- The `results` construction in `rating_for_puzzles`: each sample row becomes
an opponent at their own rating (other Glicko-2 fields defaulted); a solved
puzzle is a `LOSS` for the puzzle, a failed one a `WIN`. -/
def glicko2Results (rows : List RatingRow) : List (Glicko2Rating × Outcomes) :=
  rows.map
    (fun r =>
      let player_rating : Glicko2Rating := { glicko2Default with rating := r.rating }
      if r.solved then (player_rating, Outcomes.LOSS) else (player_rating, Outcomes.WIN))

/-- A candidate for the external rating-period update
(`skillratings::glicko2::glicko2_rating_period`), which is not part of this
repository: any function from the puzzle's seed rating and the batch of
opponent outcomes to an updated rating. -/
def PeriodFn : Type :=
  Glicko2Rating → List (Glicko2Rating × Outcomes) → Glicko2Rating

/-- Modelled from the spec: the external `skillratings` crate's
`glicko2_rating_period` is not code of this repository; the spec pins only its
zero-opponent behavior ("if the sample set is empty, the update degenerates to
returning the default rating unchanged ... a no-op rating with unchanged
deviation growth").  This predicate states that pinned behavior for a
candidate update function: with no opponents, the rating value is untouched. -/
def glicko2NoOpOnEmpty (period : PeriodFn) : Prop :=
  ∀ player : Glicko2Rating, (period player []).rating = player.rating

/-- `rating_for_puzzles` from `ratings.rs`, with the external library's
rating-period update taken as the parameter `period`: query the deduplicated
filtered sample, seed the puzzle at its default rating, map each sample to an
opponent outcome, and run one rating period. -/
def rating_for_puzzles (period : PeriodFn) (db : DB) (puzzle_id : ℕ) : Glicko2Rating :=
  let ratings := rating_rows_for_puzzle db puzzle_id
  let puzzle_default_rating := default_puzzle_rating db puzzle_id
  let puzzle_player : Glicko2Rating := { glicko2Default with rating := puzzle_default_rating }
  let results := glicko2Results ratings
  period puzzle_player results

/-- The served puzzle (struct `Puzzle` in `main.rs`). -/
structure Puzzle where
  id : ℕ
  size : ℕ
  komi : String
  root_tps : String
  defender_start_move : String
  solution : List String
  target_time_seconds : ℕ
  player_white : String
  player_black : String
  playtak_game_id : ℕ
deriving DecidableEq

/-- A draw function modelling `rand::rng().random_range(lo..hi)`: given the two
bounds, produce the drawn value. -/
def DrawFn : Type := ℚ → ℚ → ℚ

/-- `impl From<PuzzleRow> for Puzzle` from `main.rs`, with the random draw as
the parameter `draw`: count the `'1'`/`'2'` markers of the root TPS and halve,
take `div_ceil(solution token count, 2)`, set the low target time to
`(20 + num_pieces) * length`, draw from `low..low * 1.2`, and truncate to an
unsigned integer (`as u32`, which truncates toward zero and clamps below at 0,
modelled by `Int.toNat ∘ Rat.floor`). -/
def puzzleFrom (row : PuzzleRow) (draw : DrawFn) : Puzzle :=
  let num_pieces : ℕ :=
    (row.root_tps.toList.filter (fun c => c == '1' || c == '2')).length / 2
  let length : ℕ := divCeil (splitWhitespace row.solution).length 2
  let low_target_time : ℚ := (20 + (num_pieces : ℚ)) * (length : ℚ)
  let target_time : ℕ := (draw low_target_time (low_target_time * 1.2)).floor.toNat
  { id := row.id
    size := row.size
    komi := row.komi
    root_tps := row.root_tps
    defender_start_move := row.defender_start_move
    solution := splitWhitespace row.solution
    target_time_seconds := target_time
    player_white := row.player_white
    player_black := row.player_black
    playtak_game_id := row.playtak_game_id }

/-- The HTTP status codes `get_puzzle` can produce. -/
inductive StatusCode where
  | badRequest
  | notFound
  | internalServerError
deriving DecidableEq

/-- The value of `Result<Json<Puzzle>, StatusCode>`. -/
inductive HandlerResult where
  | ok (p : Puzzle)
  | err (code : StatusCode)
deriving DecidableEq

/-- `read_puzzle_by_id` from `main.rs`: `SELECT * FROM puzzles WHERE id = ?1`,
first row if any. -/
def read_puzzle_by_id (db : DB) (id : ℕ) : Option PuzzleRow :=
  db.puzzles.find? (fun q => q.id == id)

/-- A choice function modelling `ORDER BY RANDOM() LIMIT 1`: given the eligible
rows, produce the chosen one (or none). -/
def PickFn : Type := List PuzzleRow → Option PuzzleRow

/-- The contract of `ORDER BY RANDOM() LIMIT 1`: the choice is an element of
the eligible set, and is `none` exactly on the empty set. -/
def PickFnValid (pick : PickFn) : Prop :=
  ∀ l : List PuzzleRow,
    (pick l = none → l = []) ∧ ∀ r : PuzzleRow, pick l = some r → r ∈ l

/-- The eligible rows of the query in `read_unsolved_puzzles_from_db`: puzzles
with `id < 20` having no attempt row of this user (`LEFT JOIN ... WHERE
puzzle_attempts.puzzle_id IS NULL`). -/
def unattempted_pool (db : DB) (username : String) : List PuzzleRow :=
  db.puzzles.filter
    (fun q =>
      decide (q.id < 20) &&
        !(db.puzzle_attempts.any (fun a => a.puzzle_id == q.id && a.username == username)))

/-- `read_unsolved_puzzles_from_db` from `main.rs`, with the random row choice
as the parameter `pick`. -/
def read_unsolved_puzzles_from_db (db : DB) (username : String) (pick : PickFn) :
    Option PuzzleRow :=
  pick (unattempted_pool db username)

/-- The `get_puzzle` handler from `main.rs`.  A `none` result models a panic
(the `.unwrap()` of a missing onboarding puzzle row); `some` models a normal
return.  In-memory queries cannot fail, so the `INTERNAL_SERVER_ERROR` mappings
of storage errors do not arise. -/
def get_puzzle (db : DB) (username : String) (pick : PickFn) (draw : DrawFn) :
    Option HandlerResult :=
  if username.isEmpty then some (.err .badRequest)
  else
    let puzzles_solved := read_puzzle_attempts_for_user db.puzzle_attempts username
    if ¬ puzzles_solved.any (fun attempt => attempt.puzzle_id == 3) then
      match read_puzzle_by_id db 3 with
      | some puzzle_3 => some (.ok (puzzleFrom puzzle_3 draw))
      | none => none
    else if ¬ puzzles_solved.any (fun attempt => attempt.puzzle_id == 15) then
      match read_puzzle_by_id db 15 with
      | some puzzle_15 => some (.ok (puzzleFrom puzzle_15 draw))
      | none => none
    else
      match read_unsolved_puzzles_from_db db username pick with
      | some puzzle => some (.ok (puzzleFrom puzzle draw))
      | none => some (.err .notFound)

/-! ### Concrete fixtures used by witness and counterexample theorems -/

/-- A puzzle row with the given id, root TPS and solution; the remaining
columns are arbitrary fixed values. -/
def mkPuzzleRow (id : ℕ) (root_tps solution : String) : PuzzleRow :=
  { id := id
    root_tps := root_tps
    defender_start_move := "d4-"
    size := 6
    komi := "2"
    player_white := "w"
    player_black := "b"
    solution := solution
    initial_rating := none
    rating := none
    target_time_seconds := 60
    playtak_game_id := 0 }

/-- The empty database. -/
def dbEmpty : DB := { puzzles := [], puzzle_attempts := [], users := [] }

/-- A database with one stored puzzle whose solution has three tokens. -/
def dbOnePuzzle : DB :=
  { puzzles := [mkPuzzleRow 1 "x" "a b c"], puzzle_attempts := [], users := [] }

/-- A database with one rated user and one solved attempt on puzzle 7. -/
def dbOneAttempt : DB :=
  { puzzles := []
    puzzle_attempts :=
      [{ puzzle_id := 7, username := "alice", solved := true, solve_time_seconds := 30,
         solution := "a", timestamp_seconds := 100 }]
    users := [{ username := "alice", rating := 1500 }] }

/-- A database where a denylisted identity and a regular player both attempted
puzzle 7. -/
def dbDeny : DB :=
  { puzzles := []
    puzzle_attempts :=
      [{ puzzle_id := 7, username := "Morten", solved := true, solve_time_seconds := 10,
         solution := "a", timestamp_seconds := 50 },
       { puzzle_id := 7, username := "alice", solved := false, solve_time_seconds := 90,
         solution := "b", timestamp_seconds := 100 }]
    users := [{ username := "Morten", rating := 2000 }, { username := "alice", rating := 1500 }] }

/-- A database holding both onboarding puzzles and one further pool puzzle. -/
def dbOnboarding : DB :=
  { puzzles := [mkPuzzleRow 3 "1,2" "a b", mkPuzzleRow 15 "1,2" "c d", mkPuzzleRow 5 "1,2" "e f"]
    puzzle_attempts := [], users := [] }

/-- Attempts of one user on two puzzles, with a re-attempt on puzzle 3. -/
def attemptsDup : List PuzzleAttemptRow :=
  [{ puzzle_id := 3, username := "alice", solved := false, solve_time_seconds := 40,
     solution := "a", timestamp_seconds := 200 },
   { puzzle_id := 3, username := "alice", solved := true, solve_time_seconds := 25,
     solution := "b", timestamp_seconds := 100 },
   { puzzle_id := 15, username := "alice", solved := true, solve_time_seconds := 31,
     solution := "c", timestamp_seconds := 300 }]

/-- The spec's target-time scenario: a solution of four tokens and a root
position with six markers of the relevant piece types. -/
def rowScenario : PuzzleRow := mkPuzzleRow 9 "1,2,1,2,1,2" "a b c d"

/-- A concrete admissible random row choice: take the first eligible row. -/
def pickHead : PickFn := fun l => l.head?

/-- A concrete admissible random draw: the low end of the range. -/
def drawLow : DrawFn := fun low _ => low

/-- A concrete rating-period update that is a no-op on every input. -/
def periodId : PeriodFn := fun player _ => player

/-! ## Theorems -/

/-- **C1.** For every puzzle whose stored solution splits into `n`
whitespace-separated tokens, the default (zero-attempt) rating computed by
`default_puzzle_rating` equals `1250 + 350 * (n / 2)` (integer division, i.e.
`floor (n / 2)`). -/
theorem default_rating_formula (db : DB) (puzzle_id : ℕ) (row : PuzzleRow) (n : ℕ)
    (hrow : db.puzzles.find? (fun q => q.id == puzzle_id) = some row)
    (hn : (splitWhitespace row.solution).length = n) :
    default_puzzle_rating db puzzle_id = ((1250 + 350 * (n / 2) : ℕ) : ℚ) := by
  subst hn
  simp [default_puzzle_rating, querySolution, hrow, Nat.mul_comm]

/-- Witness for C1: a database holding one puzzle with the three-token solution
`"a b c"`; its default rating is `1250 + 350 * 1 = 1600`. -/
theorem default_rating_formula_witness :
    dbOnePuzzle.puzzles.find? (fun q => q.id == 1) = some (mkPuzzleRow 1 "x" "a b c")
    ∧ (splitWhitespace (mkPuzzleRow 1 "x" "a b c").solution).length = 3
    ∧ default_puzzle_rating dbOnePuzzle 1 = ((1250 + 350 * (3 / 2) : ℕ) : ℚ) :=
  ⟨by decide, by decide,
    default_rating_formula dbOnePuzzle 1 (mkPuzzleRow 1 "x" "a b c") 3 (by decide) (by decide)⟩

/-- **C8.** If the requested puzzle id is not in the store,
`default_puzzle_rating` does not fail: `unwrap_or_default` yields the empty
solution (token count 0), and the function returns the baseline 1250.  (The
embedding is a total function: with an in-memory store the only failure the
source can see on this path is the absent row, which `unwrap_or_default`
absorbs.) -/
theorem default_rating_missing_puzzle (db : DB) (puzzle_id : ℕ)
    (h : db.puzzles.find? (fun q => q.id == puzzle_id) = none) :
    default_puzzle_rating db puzzle_id = 1250 := by
  simp [default_puzzle_rating, querySolution, h, splitWhitespace, splitWsAux, String.toList]

/-- Witness for C8: the empty database has no puzzle 5, and its default rating
is 1250. -/
theorem default_rating_missing_puzzle_witness :
    dbEmpty.puzzles.find? (fun q => q.id == 5) = none
    ∧ default_puzzle_rating dbEmpty 5 = 1250 :=
  ⟨by decide, default_rating_missing_puzzle dbEmpty 5 (by decide)⟩

/-- **C5.** For every rating-period update satisfying the spec's zero-opponent
law, if the deduplicated solver sample for a puzzle is empty, the rating
returned by `rating_for_puzzles` equals the default-rating formula output
exactly. -/
theorem rating_empty_sample (period : PeriodFn) (db : DB) (puzzle_id : ℕ)
    (hperiod : glicko2NoOpOnEmpty period)
    (hempty : rating_rows_for_puzzle db puzzle_id = []) :
    (rating_for_puzzles period db puzzle_id).rating = default_puzzle_rating db puzzle_id := by
  simp only [rating_for_puzzles, hempty, glicko2Results, List.map_nil]
  exact hperiod _

/-- Witness for C5: the identity period function satisfies the zero-opponent
law, the empty database gives puzzle 2 an empty sample, and the computed
rating equals the default rating. -/
theorem rating_empty_sample_witness :
    glicko2NoOpOnEmpty periodId
    ∧ rating_rows_for_puzzle dbEmpty 2 = []
    ∧ (rating_for_puzzles periodId dbEmpty 2).rating = default_puzzle_rating dbEmpty 2 :=
  ⟨fun _ => rfl, by decide,
    rating_empty_sample periodId dbEmpty 2 (fun _ => rfl) (by decide)⟩

/-- Zipping a list with its image under `f` pairs each element with its own
image. -/
theorem mem_zip_map_self {α β : Type} (f : α → β) (l : List α) (x : α) (y : β)
    (h : (x, y) ∈ l.zip (l.map f)) : y = f x := by
  induction l with
  | nil => simp at h
  | cons a t ih =>
    rw [List.map_cons, List.zip_cons_cons] at h
    rcases List.mem_cons.mp h with heq | hmem
    · injection heq with h1 h2
      subst h1
      exact h2
    · exact ih hmem

/-- **C2.** In `rating_for_puzzles`, every deduplicated solver sample is mapped
to an opponent outcome for the puzzle: the outcome list has one entry per
sample, and a sample records a `LOSS` for the puzzle exactly when the player
solved it and a `WIN` exactly when the player failed. -/
theorem sample_outcome_mapping (db : DB) (puzzle_id : ℕ) (x : RatingRow)
    (y : Glicko2Rating × Outcomes)
    (h : (x, y) ∈ (rating_rows_for_puzzle db puzzle_id).zip
        (glicko2Results (rating_rows_for_puzzle db puzzle_id))) :
    (glicko2Results (rating_rows_for_puzzle db puzzle_id)).length
        = (rating_rows_for_puzzle db puzzle_id).length
    ∧ (x.solved = true → y.2 = Outcomes.LOSS)
    ∧ (x.solved = false → y.2 = Outcomes.WIN) := by
  refine ⟨by simp [glicko2Results], ?_, ?_⟩ <;>
  · intro hs
    simp only [glicko2Results] at h
    have hy := mem_zip_map_self _ _ _ _ h
    subst hy
    simp [hs]

/-- Witness for C2: the single deduplicated sample on puzzle 7 (a solved
attempt by a 1500-rated player) is mapped to a `LOSS` for the puzzle. -/
theorem sample_outcome_mapping_witness :
    (({ solved := true, username := "alice", rating := 1500 } : RatingRow),
        (({ glicko2Default with rating := 1500 }, Outcomes.LOSS) : Glicko2Rating × Outcomes))
      ∈ (rating_rows_for_puzzle dbOneAttempt 7).zip
          (glicko2Results (rating_rows_for_puzzle dbOneAttempt 7))
    ∧ ((glicko2Results (rating_rows_for_puzzle dbOneAttempt 7)).length
          = (rating_rows_for_puzzle dbOneAttempt 7).length
        ∧ (({ solved := true, username := "alice", rating := 1500 } : RatingRow).solved = true →
            (({ glicko2Default with rating := 1500 }, Outcomes.LOSS) :
                Glicko2Rating × Outcomes).2 = Outcomes.LOSS)
        ∧ (({ solved := true, username := "alice", rating := 1500 } : RatingRow).solved = false →
            (({ glicko2Default with rating := 1500 }, Outcomes.LOSS) :
                Glicko2Rating × Outcomes).2 = Outcomes.WIN)) :=
  ⟨by decide, sample_outcome_mapping dbOneAttempt 7 _ _ (by decide)⟩

/-- **C6.** Attempts by the denylisted identities `'Morten'` and `'Mort2'`
never appear in the solver sample consumed by the rating engine. -/
theorem denylist_excluded (db : DB) (puzzle_id : ℕ) (r : RatingRow)
    (h : r ∈ rating_rows_for_puzzle db puzzle_id) :
    r.username ≠ "Morten" ∧ r.username ≠ "Mort2" := by
  simp only [rating_rows_for_puzzle] at h
  rcases List.mem_filterMap.mp h with ⟨a, _, hfa⟩
  by_cases hd : a.username = "Morten" ∨ a.username = "Mort2"
  · simp [hd] at hfa
  · rw [if_neg hd] at hfa
    rcases Option.map_eq_some'.mp hfa with ⟨u, hu, rfl⟩
    have huser : u.username = a.username := by simpa using List.find?_some hu
    push_neg at hd
    exact ⟨by simpa [huser] using hd.1, by simpa [huser] using hd.2⟩

/-- Witness for C6: with attempts on puzzle 7 by both `'Morten'` and a regular
player, the sample row of the regular player is in the output and is not a
denylisted identity (and, by evaluation in the membership hypothesis, the
output contains nothing else). -/
theorem denylist_excluded_witness :
    ({ solved := false, username := "alice", rating := 1500 } : RatingRow)
        ∈ rating_rows_for_puzzle dbDeny 7
    ∧ ({ solved := false, username := "alice", rating := 1500 } : RatingRow).username ≠ "Morten"
    ∧ ({ solved := false, username := "alice", rating := 1500 } : RatingRow).username ≠ "Mort2" :=
  ⟨by decide, denylist_excluded dbDeny 7 _ (by decide)⟩

/-- `firstAttemptIn` returns `none` exactly on the empty list. -/
theorem firstAttemptIn_eq_none {l : List PuzzleAttemptRow} :
    firstAttemptIn l = none ↔ l = [] := by
  cases l with
  | nil => simp [firstAttemptIn]
  | cons a t =>
    simp only [firstAttemptIn]
    cases h : firstAttemptIn t <;> simp_all
    split <;> simp

/-- The earliest attempt is one of the attempts. -/
theorem firstAttemptIn_mem {l : List PuzzleAttemptRow} {a : PuzzleAttemptRow}
    (h : firstAttemptIn l = some a) : a ∈ l := by
  induction l with
  | nil => simp [firstAttemptIn] at h
  | cons x t ih =>
    cases ht : firstAttemptIn t with
    | none =>
      simp only [firstAttemptIn, ht] at h
      injection h with h
      subst h
      exact List.mem_cons_self x t
    | some b =>
      simp only [firstAttemptIn, ht] at h
      split at h
      · injection h with h
        subst h
        exact List.mem_cons_self x t
      · injection h with h
        subst h
        exact List.mem_cons_of_mem x (ih ht)

/-- The earliest attempt has minimal timestamp in its list. -/
theorem firstAttemptIn_min (l : List PuzzleAttemptRow) :
    ∀ a, firstAttemptIn l = some a →
      ∀ b ∈ l, a.timestamp_seconds ≤ b.timestamp_seconds := by
  induction l with
  | nil => intro a h; simp [firstAttemptIn] at h
  | cons x t ih =>
    intro a h b hb
    cases ht : firstAttemptIn t with
    | none =>
      have htnil : t = [] := firstAttemptIn_eq_none.mp ht
      subst htnil
      simp only [firstAttemptIn] at h
      injection h with h
      subst h
      rcases List.mem_cons.mp hb with rfl | hb
      · exact le_refl _
      · simp at hb
    | some c =>
      simp only [firstAttemptIn, ht] at h
      split at h
      · rename_i hle
        injection h with h
        subst h
        rcases List.mem_cons.mp hb with rfl | hb
        · exact le_refl _
        · exact le_trans hle (ih c ht b hb)
      · rename_i hnle
        injection h with h
        subst h
        rcases List.mem_cons.mp hb with rfl | hb
        · exact le_of_lt (lt_of_not_le hnle)
        · exact ih _ ht b hb

/-- Counting the outputs of the earliest-attempt-per-key map: over a
duplicate-free key list whose keys all occur in `ms`, the map produces exactly
one record with a given `puzzle_id` if that id is among the keys, and none
otherwise. -/
theorem countP_firstAttempt_keys (ms : List PuzzleAttemptRow) (p : ℕ) :
    ∀ keys : List ℕ, keys.Nodup → (∀ k ∈ keys, ∃ a ∈ ms, a.puzzle_id = k) →
      ((keys.filterMap
            (fun k => firstAttemptIn (ms.filter (fun a => a.puzzle_id == k)))).countP
          (fun r => r.puzzle_id == p))
        = if p ∈ keys then 1 else 0 := by
  intro keys
  induction keys with
  | nil => simp
  | cons k ks ih =>
    intro hnd hmem
    obtain ⟨a, ha, hak⟩ := hmem k (List.mem_cons_self k ks)
    have hne : ms.filter (fun a => a.puzzle_id == k) ≠ [] := by
      intro hempty
      have hmemf : a ∈ ms.filter (fun a => a.puzzle_id == k) :=
        List.mem_filter.mpr ⟨ha, by simp [hak]⟩
      rw [hempty] at hmemf
      simp at hmemf
    obtain ⟨r, hr⟩ : ∃ r, firstAttemptIn (ms.filter (fun a => a.puzzle_id == k)) = some r := by
      cases hfa : firstAttemptIn (ms.filter (fun a => a.puzzle_id == k)) with
      | none => exact absurd (firstAttemptIn_eq_none.mp hfa) hne
      | some r => exact ⟨r, rfl⟩
    have hrk : r.puzzle_id = k := by
      have hmemf := List.mem_filter.mp (firstAttemptIn_mem hr)
      simpa using hmemf.2
    have hnd' := List.nodup_cons.mp hnd
    rw [List.filterMap_cons, hr, List.countP_cons,
      ih hnd'.2 (fun k' hk' => hmem k' (List.mem_cons_of_mem _ hk'))]
    by_cases hpk : p = k
    · subst hpk
      have hnotks : p ∉ ks := hnd'.1
      simp [hrk, hnotks]
    · have hkp : ¬k = p := fun hkp => hpk hkp.symm
      simp [List.mem_cons, hpk, hrk, hkp]

/-- **C4.** `read_puzzle_attempts_for_user` returns exactly one attempt record
per distinct puzzle the player has any attempt on, and every returned record
is an attempt of that player with minimal timestamp among the player's
attempts on that puzzle. -/
theorem first_attempt_per_puzzle (attempts : List PuzzleAttemptRow) (u : String) (p : ℕ) :
    ((read_puzzle_attempts_for_user attempts u).countP (fun r => r.puzzle_id == p)
        = if ∃ a ∈ attempts, a.username = u ∧ a.puzzle_id = p then 1 else 0)
    ∧ ∀ r ∈ read_puzzle_attempts_for_user attempts u,
        r ∈ attempts ∧ r.username = u ∧
          ∀ a ∈ attempts, a.username = u → a.puzzle_id = r.puzzle_id →
            r.timestamp_seconds ≤ a.timestamp_seconds := by
  have hdef : read_puzzle_attempts_for_user attempts u
      = (((attempts.filter (fun a => a.username == u)).map (fun a => a.puzzle_id)).dedup).filterMap
          (fun k =>
            firstAttemptIn
              ((attempts.filter (fun a => a.username == u)).filter
                (fun a => a.puzzle_id == k))) := rfl
  constructor
  · have h1 := countP_firstAttempt_keys (attempts.filter (fun a => a.username == u)) p
      (((attempts.filter (fun a => a.username == u)).map (fun a => a.puzzle_id)).dedup)
      (List.nodup_dedup _)
      (fun k hk => by
        rcases List.mem_map.mp (List.mem_dedup.mp hk) with ⟨a, ha, rfl⟩
        exact ⟨a, ha, rfl⟩)
    rw [hdef, h1]
    have hiff :
        (p ∈ ((attempts.filter (fun a => a.username == u)).map (fun a => a.puzzle_id)).dedup)
          ↔ ∃ a ∈ attempts, a.username = u ∧ a.puzzle_id = p := by
      rw [List.mem_dedup, List.mem_map]
      constructor
      · rintro ⟨a, ha, rfl⟩
        have hf := List.mem_filter.mp ha
        exact ⟨a, hf.1, by simpa using hf.2, rfl⟩
      · rintro ⟨a, ha, hau, hap⟩
        exact ⟨a, List.mem_filter.mpr ⟨ha, by simp [hau]⟩, hap⟩
    simp only [hiff]
  · intro r hr
    rw [hdef] at hr
    rcases List.mem_filterMap.mp hr with ⟨k, _, hfk⟩
    have h2 := List.mem_filter.mp (firstAttemptIn_mem hfk)
    have h3 := List.mem_filter.mp h2.1
    refine ⟨h3.1, by simpa using h3.2, ?_⟩
    intro a ha hau hap
    have hrk : r.puzzle_id = k := by simpa using h2.2
    have hamem :
        a ∈ (attempts.filter (fun a => a.username == u)).filter (fun x => x.puzzle_id == k) :=
      List.mem_filter.mpr
        ⟨List.mem_filter.mpr ⟨ha, by simp [hau]⟩, by simp [hap, hrk]⟩
    exact firstAttemptIn_min _ r hfk a hamem

/-- Witness for C4: with a duplicated attempt on puzzle 3 (timestamps 200 and
100) and one attempt on puzzle 15, exactly one record is returned for
puzzle 3, and every returned record is the minimum-timestamp one. -/
theorem first_attempt_per_puzzle_witness :
    ((read_puzzle_attempts_for_user attemptsDup "alice").countP (fun r => r.puzzle_id == 3)
        = if ∃ a ∈ attemptsDup, a.username = "alice" ∧ a.puzzle_id = 3 then 1 else 0)
    ∧ ∀ r ∈ read_puzzle_attempts_for_user attemptsDup "alice",
        r ∈ attemptsDup ∧ r.username = "alice" ∧
          ∀ a ∈ attemptsDup, a.username = "alice" → a.puzzle_id = r.puzzle_id →
            r.timestamp_seconds ≤ a.timestamp_seconds :=
  first_attempt_per_puzzle attemptsDup "alice" 3

/-- **C7.** For every puzzle row and every random draw within the range the
random source is given, the computed target time in seconds lies within
`[low, low * 1.2)`, where `low = (20 + pieceCount) * plyPairs`, `pieceCount`
is the count of `'1'`/`'2'` markers in the root TPS divided by two, and
`plyPairs = ceil(solutionTokenCount / 2)`. -/
theorem target_time_bounds (row : PuzzleRow) (draw : DrawFn) (np len : ℕ) (low : ℚ)
    (hnp : np = (row.root_tps.toList.filter (fun c => c == '1' || c == '2')).length / 2)
    (hlen : len = divCeil (splitWhitespace row.solution).length 2)
    (hlow : low = (((20 + np) * len : ℕ) : ℚ))
    (hdraw : low ≤ draw low (low * 1.2) ∧ draw low (low * 1.2) < low * 1.2) :
    low ≤ ((puzzleFrom row draw).target_time_seconds : ℚ)
    ∧ ((puzzleFrom row draw).target_time_seconds : ℚ) < low * 1.2 := by
  have hproj : (puzzleFrom row draw).target_time_seconds
      = (draw ((20 + (np : ℚ)) * (len : ℚ))
          ((20 + (np : ℚ)) * (len : ℚ) * 1.2)).floor.toNat := by
    rw [hnp, hlen]
    rfl
  have hlows : (20 + (np : ℚ)) * (len : ℚ) = low := by
    rw [hlow]
    push_cast
    ring
  rw [hproj, hlows]
  set d := draw low (low * 1.2) with hd
  obtain ⟨hdl, hdu⟩ := hdraw
  have h2 : (((20 + np) * len : ℕ) : ℤ) ≤ d.floor := by
    rw [Rat.le_floor]
    push_cast
    rw [hlows]
    exact hdl
  have h3 : (0 : ℤ) ≤ d.floor := le_trans (Int.natCast_nonneg _) h2
  have h4 : ((d.floor.toNat : ℕ) : ℤ) = d.floor := Int.toNat_of_nonneg h3
  rw [← h4] at h2
  constructor
  · rw [hlow]
    exact_mod_cast h2
  · have h6 : ((d.floor : ℤ) : ℚ) ≤ d := Rat.le_floor.mp le_rfl
    rw [← h4] at h6
    have h7 : ((d.floor.toNat : ℕ) : ℚ) ≤ d := by exact_mod_cast h6
    exact lt_of_le_of_lt h7 hdu

/-- Witness for C7, the spec's scenario: solution `"a b c d"` (4 tokens, so
`plyPairs = 2`), root TPS with six relevant markers (`pieceCount = 3`), hence
`low = 46`; a draw at the low end gives a target time within `[46, 55.2)`. -/
theorem target_time_bounds_witness :
    (46 : ℚ) ≤ ((puzzleFrom rowScenario drawLow).target_time_seconds : ℚ)
    ∧ ((puzzleFrom rowScenario drawLow).target_time_seconds : ℚ) < 46 * 1.2 :=
  target_time_bounds rowScenario drawLow 3 2 46 (by decide) (by decide) (by norm_num)
    (by constructor <;> norm_num [drawLow])

/-- **C10.** With a nonempty username, `get_puzzle` panics (the `.unwrap()` of
a missing row, modelled as `none`) exactly when an onboarding puzzle is due
(no first-attempt record on 3, respectively on 15) but its row is absent from
the `puzzles` table; in particular the handler is panic-free whenever puzzles
3 and 15 exist in the store, and can panic whenever one of them is missing. -/
theorem get_puzzle_panic_iff (db : DB) (u : String) (pick : PickFn) (draw : DrawFn)
    (hu : u.isEmpty = false) :
    (get_puzzle db u pick draw = none ↔
      ((¬ (read_puzzle_attempts_for_user db.puzzle_attempts u).any
            (fun attempt => attempt.puzzle_id == 3)
          ∧ read_puzzle_by_id db 3 = none)
        ∨ ((read_puzzle_attempts_for_user db.puzzle_attempts u).any
              (fun attempt => attempt.puzzle_id == 3)
            ∧ ¬ (read_puzzle_attempts_for_user db.puzzle_attempts u).any
                (fun attempt => attempt.puzzle_id == 15)
            ∧ read_puzzle_by_id db 15 = none)))
    ∧ ((read_puzzle_by_id db 3).isSome → (read_puzzle_by_id db 15).isSome →
        get_puzzle db u pick draw ≠ none) := by
  unfold get_puzzle read_unsolved_puzzles_from_db
  by_cases h3 : (read_puzzle_attempts_for_user db.puzzle_attempts u).any
      (fun attempt => attempt.puzzle_id == 3)
  · by_cases h15 : (read_puzzle_attempts_for_user db.puzzle_attempts u).any
        (fun attempt => attempt.puzzle_id == 15)
    · cases hp : pick (unattempted_pool db u) <;> simp [hu, h3, h15, hp]
    · cases hq15 : read_puzzle_by_id db 15 <;> simp [hu, h3, h15, hq15]
  · cases hq3 : read_puzzle_by_id db 3 <;> simp [hu, h3, hq3]

/-- Witness for C10: on the empty database with the never-attempting player
`"alice"`, puzzle 3 is due but absent, and the handler indeed panics. -/
theorem get_puzzle_panic_iff_witness :
    (get_puzzle dbEmpty "alice" pickHead drawLow = none ↔
      ((¬ (read_puzzle_attempts_for_user dbEmpty.puzzle_attempts "alice").any
            (fun attempt => attempt.puzzle_id == 3)
          ∧ read_puzzle_by_id dbEmpty 3 = none)
        ∨ ((read_puzzle_attempts_for_user dbEmpty.puzzle_attempts "alice").any
              (fun attempt => attempt.puzzle_id == 3)
            ∧ ¬ (read_puzzle_attempts_for_user dbEmpty.puzzle_attempts "alice").any
                (fun attempt => attempt.puzzle_id == 15)
            ∧ read_puzzle_by_id dbEmpty 15 = none)))
    ∧ ((read_puzzle_by_id dbEmpty 3).isSome → (read_puzzle_by_id dbEmpty 15).isSome →
        get_puzzle dbEmpty "alice" pickHead drawLow ≠ none) :=
  get_puzzle_panic_iff dbEmpty "alice" pickHead drawLow rfl

/-- The claim C3 as frozen is false on the code: a player with no
first-attempt record on puzzle 3 is not served puzzle 3 when the puzzles
table lacks a row with id 3 — the handler panics (`none`) instead. -/
theorem puzzle_selector_counterexample :
    ¬ ((read_puzzle_attempts_for_user dbEmpty.puzzle_attempts "alice").any
        (fun attempt => attempt.puzzle_id == 3))
    ∧ get_puzzle dbEmpty "alice" pickHead drawLow = none :=
  ⟨by decide, rfl⟩

/-- `pickHead` satisfies the random-choice contract. -/
theorem pickHead_valid : PickFnValid pickHead := by
  intro l
  constructor
  · intro h
    cases l with
    | nil => rfl
    | cons a t => simp [pickHead] at h
  · intro r hr
    cases l with
    | nil => simp [pickHead] at hr
    | cons a t =>
      simp [pickHead] at hr
      subst hr
      exact List.mem_cons_self a t

/-- **C3 (amended).** For every player with a nonempty identity, every
admissible random choice, and every store containing puzzle rows with ids 3
and 15: the selector serves puzzle 3 whenever the player has no first-attempt
record on 3; otherwise serves puzzle 15 whenever the player has no
first-attempt record on 15; otherwise serves the randomly chosen puzzle from
the pool of puzzles with `id < 20` that the player has never attempted (any
served puzzle lies in that pool); and if that pool is empty it returns the
`NOT_FOUND` empty-result signal rather than an error. -/
theorem puzzle_selector_amended (db : DB) (u : String) (pick : PickFn) (draw : DrawFn)
    (hu : u.isEmpty = false) (hpick : PickFnValid pick)
    (h3 : ∃ q ∈ db.puzzles, q.id = 3) (h15 : ∃ q ∈ db.puzzles, q.id = 15) :
    ((¬ (read_puzzle_attempts_for_user db.puzzle_attempts u).any
          (fun attempt => attempt.puzzle_id == 3)) →
        ∃ row, read_puzzle_by_id db 3 = some row ∧ row.id = 3
          ∧ get_puzzle db u pick draw = some (.ok (puzzleFrom row draw)))
    ∧ (((read_puzzle_attempts_for_user db.puzzle_attempts u).any
          (fun attempt => attempt.puzzle_id == 3)) →
        (¬ (read_puzzle_attempts_for_user db.puzzle_attempts u).any
            (fun attempt => attempt.puzzle_id == 15)) →
        ∃ row, read_puzzle_by_id db 15 = some row ∧ row.id = 15
          ∧ get_puzzle db u pick draw = some (.ok (puzzleFrom row draw)))
    ∧ (((read_puzzle_attempts_for_user db.puzzle_attempts u).any
          (fun attempt => attempt.puzzle_id == 3)) →
        ((read_puzzle_attempts_for_user db.puzzle_attempts u).any
          (fun attempt => attempt.puzzle_id == 15)) →
        (unattempted_pool db u = [] → get_puzzle db u pick draw = some (.err .notFound))
        ∧ (unattempted_pool db u ≠ [] →
            ∃ row ∈ unattempted_pool db u, row.id < 20
              ∧ (¬ ∃ a ∈ db.puzzle_attempts, a.username = u ∧ a.puzzle_id = row.id)
              ∧ get_puzzle db u pick draw = some (.ok (puzzleFrom row draw)))) := by
  have hfind : ∀ i : ℕ, (∃ q ∈ db.puzzles, q.id = i) →
      ∃ row, read_puzzle_by_id db i = some row ∧ row.id = i := by
    intro i hi
    obtain ⟨q, hqmem, hq⟩ := hi
    have hsome : (read_puzzle_by_id db i).isSome := by
      rw [read_puzzle_by_id, List.find?_isSome]
      exact ⟨q, hqmem, by simp [hq]⟩
    obtain ⟨row, hrow⟩ := Option.isSome_iff_exists.mp hsome
    refine ⟨row, hrow, ?_⟩
    rw [read_puzzle_by_id] at hrow
    simpa using List.find?_some hrow
  refine ⟨?_, ?_, ?_⟩
  · intro hatt3
    obtain ⟨row, hrow, hid⟩ := hfind 3 h3
    refine ⟨row, hrow, hid, ?_⟩
    unfold get_puzzle
    simp [hu, hatt3, hrow]
  · intro hatt3 hatt15
    obtain ⟨row, hrow, hid⟩ := hfind 15 h15
    refine ⟨row, hrow, hid, ?_⟩
    unfold get_puzzle
    simp [hu, hatt3, hatt15, hrow]
  · intro hatt3 hatt15
    constructor
    · intro hpool
      have hpnone : pick (unattempted_pool db u) = none := by
        cases hp : pick (unattempted_pool db u) with
        | none => rfl
        | some r =>
          have := (hpick (unattempted_pool db u)).2 r hp
          rw [hpool] at this
          simp at this
      unfold get_puzzle read_unsolved_puzzles_from_db
      simp [hu, hatt3, hatt15, hpnone]
    · intro hpool
      cases hp : pick (unattempted_pool db u) with
      | none => exact absurd ((hpick (unattempted_pool db u)).1 hp) hpool
      | some row =>
        have hmem := (hpick (unattempted_pool db u)).2 row hp
        have hfacts := List.mem_filter.mp hmem
        refine ⟨row, hmem, ?_, ?_, ?_⟩
        · have := hfacts.2
          simp only [Bool.and_eq_true, decide_eq_true_eq] at this
          exact this.1
        · have := hfacts.2
          simp only [Bool.and_eq_true, Bool.not_eq_true', List.any_eq_false] at this
          rintro ⟨a, ha, hau, hap⟩
          have := this.2 a ha
          simp [hau, hap] at this
        · unfold get_puzzle read_unsolved_puzzles_from_db
          simp [hu, hatt3, hatt15, hp]

/-- Witness for C3 (amended): a new player on a store holding puzzles 3, 15
and 5; all three hypotheses are discharged concretely. -/
theorem puzzle_selector_amended_witness :
    ((¬ (read_puzzle_attempts_for_user dbOnboarding.puzzle_attempts "alice").any
          (fun attempt => attempt.puzzle_id == 3)) →
        ∃ row, read_puzzle_by_id dbOnboarding 3 = some row ∧ row.id = 3
          ∧ get_puzzle dbOnboarding "alice" pickHead drawLow
              = some (.ok (puzzleFrom row drawLow)))
    ∧ (((read_puzzle_attempts_for_user dbOnboarding.puzzle_attempts "alice").any
          (fun attempt => attempt.puzzle_id == 3)) →
        (¬ (read_puzzle_attempts_for_user dbOnboarding.puzzle_attempts "alice").any
            (fun attempt => attempt.puzzle_id == 15)) →
        ∃ row, read_puzzle_by_id dbOnboarding 15 = some row ∧ row.id = 15
          ∧ get_puzzle dbOnboarding "alice" pickHead drawLow
              = some (.ok (puzzleFrom row drawLow)))
    ∧ (((read_puzzle_attempts_for_user dbOnboarding.puzzle_attempts "alice").any
          (fun attempt => attempt.puzzle_id == 3)) →
        ((read_puzzle_attempts_for_user dbOnboarding.puzzle_attempts "alice").any
          (fun attempt => attempt.puzzle_id == 15)) →
        (unattempted_pool dbOnboarding "alice" = [] →
          get_puzzle dbOnboarding "alice" pickHead drawLow = some (.err .notFound))
        ∧ (unattempted_pool dbOnboarding "alice" ≠ [] →
            ∃ row ∈ unattempted_pool dbOnboarding "alice", row.id < 20
              ∧ (¬ ∃ a ∈ dbOnboarding.puzzle_attempts,
                    a.username = "alice" ∧ a.puzzle_id = row.id)
              ∧ get_puzzle dbOnboarding "alice" pickHead drawLow
                  = some (.ok (puzzleFrom row drawLow)))) :=
  puzzle_selector_amended dbOnboarding "alice" pickHead drawLow rfl pickHead_valid
    (by decide) (by decide)

end TakTactics
